import Mathlib

set_option maxRecDepth 4000

/-!
Verification of the Rubiks-cube face recognition pipeline
(`RubiksCubeRecognition/main.cpp`).

The source is a single C++ file built on OpenCV.  The algorithmic core —
the area filter, centroid moments, the 3×3 grid assignment
(`CubeFaceAnalyzer::assignToGrid`), color-matrix construction
(`CubeFaceAnalyzer::createColorMatrix`), the standardized face renderer
(`CubeVisualizer::drawStandardFace`) and the main loop's face reordering —
is embedded shallowly below.  Pixel coordinates and areas are modelled as
rationals (the C++ uses `float`/`double`; all operations involved are exact
midpoints, sums and comparisons, so ℚ is an exact model of the intended real
arithmetic).  OpenCV primitives (`Mat` construction, `rectangle`, `putText`)
are modelled at the pixel-buffer level as total functions; their internal
raster details (glyph shapes, border geometry) are library-internal and no
theorem below depends on them beyond locality and definedness of the writes.
-/

namespace Rubiks

/-- BGR color triple, the `cv::Scalar(b, g, r)` values used for drawing. -/
structure BGR where
  b : Nat
  g : Nat
  r : Nat
deriving DecidableEq

/-- One entry of `CubeFaceAnalyzer::colorTable` (main.cpp lines 61–68).
The LAB threshold fields `minVal`/`maxVal` feed only the out-of-scope OpenCV
`inRange` call and are omitted; `name`, `drawColor` and `code` are the fields
the embedded core reads. -/
structure ColorRange where
  name : String
  drawColor : BGR
  code : Char
deriving DecidableEq

/-- The six calibrated colors, in the order of `colorTable` in the source. -/
def colorTable : List ColorRange :=
  [⟨"Red",    ⟨0, 0, 255⟩,     'R'⟩,
   ⟨"Yellow", ⟨0, 255, 255⟩,   'Y'⟩,
   ⟨"Green",  ⟨0, 255, 0⟩,     'G'⟩,
   ⟨"Blue",   ⟨255, 0, 0⟩,     'B'⟩,
   ⟨"White",  ⟨255, 255, 255⟩, 'W'⟩,
   ⟨"Pink",   ⟨203, 192, 255⟩, 'P'⟩]

/-- The `colorCodes` map (name → code) built in the constructor
(main.cpp lines 71–73).  `std::map::operator[]` value-initializes a missing
key, so an unknown name yields the NUL character. -/
def colorCodes (name : String) : Char :=
  (((colorTable.find? (fun c => c.name == name)).map ColorRange.code)).getD
    (Char.ofNat 0)

/-- `CubeFaceAnalyzer::getColorCodeMap` (main.cpp lines 271–277):
code → display color, as an association list. -/
def getColorCodeMap : List (Char × BGR) :=
  colorTable.map (fun c => (c.code, c.drawColor))

/-- `ColorBlock` (main.cpp lines 22–30).  `center` is the contour centroid
(x, y); `row`/`col` are the 3×3 grid indices, written only by
`assignToGrid` — the C++ declares them as plain `int` members and the
detection loop never initializes them, so a freshly detected block carries
arbitrary (indeterminate) `row`/`col` values.  The `colorValue` and
`boundingBox` fields feed only drawing and are omitted. -/
structure ColorBlock where
  center : ℚ × ℚ
  colorName : String
  row : Int
  col : Int
  area : ℚ
deriving DecidableEq

/-- Row thresholds of `assignToGrid` (main.cpp lines 194–202): sort the nine
centroid y-coordinates ascending, put threshold 1 halfway between sorted
values 2 and 3 and threshold 2 halfway between sorted values 5 and 6. -/
def rowThresholds (blocks : List ColorBlock) : ℚ × ℚ :=
  let yCoords := List.insertionSort (fun a b : ℚ => a ≤ b)
    (blocks.map (fun b => b.center.2))
  (yCoords[2]! + (yCoords[3]! - yCoords[2]!) / 2,
   yCoords[5]! + (yCoords[6]! - yCoords[5]!) / 2)

/-- Row assignment of one block (main.cpp lines 205–215). -/
def setRow (t1 t2 : ℚ) (b : ColorBlock) : ColorBlock :=
  if b.center.2 < t1 then { b with row := 0 }
  else if b.center.2 < t2 then { b with row := 1 }
  else { b with row := 2 }

/-- Column assignment within one row (main.cpp lines 233–235): the blocks of
the row, already sorted by centroid x, receive `col = rank`. -/
def assignCols : List ColorBlock → Nat → List ColorBlock
  | [], _ => []
  | b :: rest, i => { b with col := (i : Int) } :: assignCols rest (i + 1)

/-- One row pass of `assignToGrid` (main.cpp lines 218–236): filter the
blocks whose assigned row is `r`, sort them by centroid x, give them column
ranks.  The C++ sorts with the strict comparator `a->center.x < b->center.x`
via `std::sort`; a stable insertion sort over the reflexive closure `≤`
realizes one valid outcome of that unspecified-on-ties sort. -/
def rowSorted (blocks : List ColorBlock) (r : Int) : List ColorBlock :=
  assignCols
    (List.insertionSort (fun a b => a.center.1 ≤ b.center.1)
      (blocks.filter (fun b => b.row == r)))
    0

/-- `CubeFaceAnalyzer::assignToGrid` (main.cpp lines 186–240).  The C++
updates `row`/`col` in place and finally sorts the vector with
`compareColorBlocks` ((row, col) lexicographic).  Every block receives
`row ∈ {0,1,2}` and, within each row class, a distinct column rank, so the
(row, col) keys are pairwise distinct and the unique (row, col)-sorted
order is exactly the concatenation of the three per-row x-sorted lists. -/
def assignToGrid (blocks : List ColorBlock) : List ColorBlock :=
  let t := rowThresholds blocks
  let rowed := blocks.map (setRow t.1 t.2)
  rowSorted rowed 0 ++ rowSorted rowed 1 ++ rowSorted rowed 2

/-- The grid-assignment gate of `analyzeCubeFace` (main.cpp lines 172–181):
the detection loop (OpenCV thresholding / morphology / contour extraction,
out of scope) has produced `allBlocks`; grid assignment runs only when
exactly nine blocks were found, otherwise a warning is printed and the
blocks are returned untouched — with whatever `row`/`col` values their
(uninitialized) fields happen to hold. -/
def analyzeCubeFace (allBlocks : List ColorBlock) : List ColorBlock :=
  if allBlocks.length = 9 then assignToGrid allBlocks else allBlocks

/-- The all-blank 3×3 matrix `vector<vector<char>>(3, vector<char>(3, ' '))`
(main.cpp line 246). -/
def blankMatrix : List (List Char) := [[' ', ' ', ' '], [' ', ' ', ' '], [' ', ' ', ' ']]

/-- `colorMatrix[r][c] = ch`. -/
def setCell (m : List (List Char)) (r c : Nat) (ch : Char) : List (List Char) :=
  m.set r ((m.getD r []).set c ch)

/-- `CubeFaceAnalyzer::createColorMatrix` (main.cpp lines 245–255): start
from the all-blank matrix and write each block's color code at its
(row, col), skipping blocks whose indices fall outside the 3×3 range. -/
def createColorMatrix (blocks : List ColorBlock) : List (List Char) :=
  blocks.foldl
    (fun m b =>
      if 0 ≤ b.row ∧ b.row < 3 ∧ 0 ≤ b.col ∧ b.col < 3 then
        setCell m b.row.toNat b.col.toNat (colorCodes b.colorName)
      else m)
    blankMatrix

/-! ### Contour area and moments (main.cpp lines 129–145)

A contour is the list of its integer pixel vertices, as produced by
`findContours` with `CHAIN_APPROX_SIMPLE`.  OpenCV's `contourArea` is the
absolute value of the shoelace (Green's theorem) polygon area, and
`moments(...).m00` is the same polygon area with its orientation sign; both
are evaluated on the same vertex list `contours[i]`.  `signedArea2` is twice
the signed area, an exact integer. -/

/-- Twice the signed polygon area of a closed contour: the shoelace sum of
cross products over consecutive vertex pairs (wrapping around). -/
def signedArea2 (c : List (Int × Int)) : Int :=
  (c.zip (c.rotateLeft 1)).foldl
    (fun acc pq => acc + (pq.1.1 * pq.2.2 - pq.2.1 * pq.1.2)) 0

/-- `cv::contourArea` on the contour (oriented = false): |signed area|. -/
def contourArea (c : List (Int × Int)) : ℚ := |(signedArea2 c : ℚ)| / 2

/-- `cv::moments(contour).m00`: the signed polygon area. -/
def m00 (c : List (Int × Int)) : ℚ := (signedArea2 c : ℚ) / 2

/-- The area filter (main.cpp line 131):
`if (area < 15000 || area > 150000) continue;` — a contour is kept exactly
when this test does not fire. -/
def passesAreaFilter (c : List (Int × Int)) : Bool :=
  !(decide (contourArea c < 15000) || decide (contourArea c > 150000))

/-! ### The main loop's face bookkeeping (main.cpp lines 470–556)

The six images are captured in the order Front, Back, Left, Right, Up, Down.
A face whose image fails to load is skipped with `continue`
(main.cpp line 486), so its matrix is never pushed onto `allColorMatrices` —
the collected list is compacted.  Before rendering the net, the matrices are
reordered through the fixed index list `order = {4, 2, 0, 3, 1, 5}`, pushing
`allColorMatrices[idx]` only when `idx < allColorMatrices.size()`
(main.cpp lines 541–554).  The per-face matrices are abstracted as an
arbitrary type `M` indexed by capture position. -/

/-- Capture-order face names (main.cpp line 470). -/
def faceNames : List String := ["Front", "Back", "Left", "Right", "Up", "Down"]

/-- The reorder index list `order = {4, 2, 0, 3, 1, 5}` (main.cpp line 548). -/
def netOrder : List Nat := [4, 2, 0, 3, 1, 5]

/-- `allColorMatrices` after the main loop: the matrix of each face whose
image loaded, in capture order (main.cpp lines 481–508). -/
def collectMatrices {M : Type} (loaded : Fin 6 → Bool) (mats : Fin 6 → M) :
    List M :=
  ((List.finRange 6).filter (fun i => loaded i)).map mats

/-- `reorderedMatrices` (main.cpp lines 550–554): for each index in
`netOrder`, push the collected matrix at that index if it exists. -/
def reorderForNet {M : Type} (l : List M) : List M :=
  netOrder.filterMap (fun idx => l[idx]?)

/-! ### C1: region-count mismatch and the color matrix -/

/-- A face that produced only eight qualifying regions.  The C++ never
initializes the `row`/`col` members of a freshly detected `ColorBlock`
(main.cpp lines 148–155), so after `assignToGrid` is skipped they hold
indeterminate stack garbage; here one block's garbage reads as (0, 0) and
the other seven read as the debug fill pattern 0xCCCCCCCC. -/
def mismatchBlocks : List ColorBlock :=
  ⟨(100, 100), "Red", 0, 0, 20000⟩ ::
    (List.range 7).map
      (fun i => ⟨(200 + 10 * i, 200), "Blue", -858993460, -858993460, 20000⟩)

/-- A degenerate two-point contour: zero area moments, skipped by the area
filter before any centroid computation. -/
def degenerateContour : List (Int × Int) := [(0, 0), (5, 5)]

/-! ### C7: face ordering handed to the cube-net renderer -/

/-- C7 counterexample data: the Front image (capture index 0) fails to load
and is skipped (main.cpp line 486); the other five faces load.  Matrices are
abstracted as their capture indices. -/
def skipLoaded : Fin 6 → Bool := fun i => decide (0 < i.val)

def skipMats : Fin 6 → Nat := fun i => i.val

/-! ### C10: color-matrix construction invariants -/

/-- The six calibrated color names, in `colorTable` order. -/
def sixNames : List String := ["Red", "Yellow", "Green", "Blue", "White", "Pink"]

/-- The in-range test of `createColorMatrix` (main.cpp line 249). -/
def inGridRange (b : ColorBlock) : Bool :=
  decide (0 ≤ b.row) && decide (b.row < 3) &&
    decide (0 ≤ b.col) && decide (b.col < 3)

def cmBlocksW : List ColorBlock :=
  [⟨(0, 0), "Red", 0, 0, 20000⟩, ⟨(0, 0), "Blue", 5, -7, 20000⟩]

/-! ### C3: what grid assignment guarantees for nine regions -/

/-- C3 counterexample data: nine regions whose centroids all share one
y-coordinate.  Both thresholds collapse onto that y, every block falls into
row 2, and the columns within that row are ranked 0..8. -/
def flatRowBlocks : List ColorBlock :=
  [⟨(0, 5), "Red", -1, -1, 20000⟩, ⟨(10, 5), "Red", -1, -1, 20000⟩,
   ⟨(20, 5), "Red", -1, -1, 20000⟩, ⟨(30, 5), "Red", -1, -1, 20000⟩,
   ⟨(40, 5), "Red", -1, -1, 20000⟩, ⟨(50, 5), "Red", -1, -1, 20000⟩,
   ⟨(60, 5), "Red", -1, -1, 20000⟩, ⟨(70, 5), "Red", -1, -1, 20000⟩,
   ⟨(80, 5), "Red", -1, -1, 20000⟩]

/-- A well-formed lattice face used to instantiate the nine-region
theorems: three y-levels 10/20/30, three x-positions 10/20/30 per level. -/
def gridWitnessBlocks : List ColorBlock :=
  [⟨(20, 10), "Red", -1, -1, 20000⟩, ⟨(10, 10), "Blue", -1, -1, 20000⟩,
   ⟨(30, 30), "Green", -1, -1, 20000⟩, ⟨(10, 30), "White", -1, -1, 20000⟩,
   ⟨(20, 30), "Pink", -1, -1, 20000⟩, ⟨(30, 10), "Yellow", -1, -1, 20000⟩,
   ⟨(10, 20), "Red", -1, -1, 20000⟩, ⟨(20, 20), "Blue", -1, -1, 20000⟩,
   ⟨(30, 20), "Green", -1, -1, 20000⟩]

/-! ### C5: order invariance of grid assignment -/

/-- C5 counterexample data: a nine-region face whose top row contains two
regions with the same centroid x (a tie for the x-sort) but different
colors; `tieBlocks'` swaps those two in the input order. -/
def tieBlocks : List ColorBlock :=
  [⟨(10, 10), "Red", -1, -1, 20000⟩, ⟨(10, 10), "Green", -1, -1, 20000⟩,
   ⟨(30, 10), "Blue", -1, -1, 20000⟩,
   ⟨(10, 20), "White", -1, -1, 20000⟩, ⟨(20, 20), "Pink", -1, -1, 20000⟩,
   ⟨(30, 20), "Yellow", -1, -1, 20000⟩,
   ⟨(10, 30), "Red", -1, -1, 20000⟩, ⟨(20, 30), "Blue", -1, -1, 20000⟩,
   ⟨(30, 30), "Green", -1, -1, 20000⟩]

def tieBlocks' : List ColorBlock :=
  [⟨(10, 10), "Green", -1, -1, 20000⟩, ⟨(10, 10), "Red", -1, -1, 20000⟩,
   ⟨(30, 10), "Blue", -1, -1, 20000⟩,
   ⟨(10, 20), "White", -1, -1, 20000⟩, ⟨(20, 20), "Pink", -1, -1, 20000⟩,
   ⟨(30, 20), "Yellow", -1, -1, 20000⟩,
   ⟨(10, 30), "Red", -1, -1, 20000⟩, ⟨(20, 30), "Blue", -1, -1, 20000⟩,
   ⟨(30, 30), "Green", -1, -1, 20000⟩]

/-- The amended hypothesis for order invariance: within each assigned row
class, the centroid x-coordinates are pairwise distinct. -/
def rowXsDistinct (blocks : List ColorBlock) : Prop :=
  ∀ r ∈ ([0, 1, 2] : List Int),
    (((blocks.map (setRow (rowThresholds blocks).1
        (rowThresholds blocks).2)).filter (fun b => b.row == r)).map
      (fun b => b.center.1)).Nodup

instance (blocks : List ColorBlock) : Decidable (rowXsDistinct blocks) := by
  unfold rowXsDistinct
  infer_instance

/-- A permutation of the lattice face `gridWitnessBlocks`: its first two
regions swapped. -/
def gridWitnessBlocksPerm : List ColorBlock :=
  [⟨(10, 10), "Blue", -1, -1, 20000⟩, ⟨(20, 10), "Red", -1, -1, 20000⟩,
   ⟨(30, 30), "Green", -1, -1, 20000⟩, ⟨(10, 30), "White", -1, -1, 20000⟩,
   ⟨(20, 30), "Pink", -1, -1, 20000⟩, ⟨(30, 10), "Yellow", -1, -1, 20000⟩,
   ⟨(10, 20), "Red", -1, -1, 20000⟩, ⟨(20, 20), "Blue", -1, -1, 20000⟩,
   ⟨(30, 20), "Green", -1, -1, 20000⟩]

/-- A concrete 30-pixel-pitch lattice instantiating the recovery theorem. -/
def latticeY : Fin 3 → ℚ := fun r => 10 * (r.val + 1)

def latticeX : Fin 3 → Fin 3 → ℚ := fun _ c => 10 * (c.val + 1)

def latticeBl : Fin 3 → Fin 3 → ColorBlock := fun r c =>
  ⟨(latticeX r c, latticeY r), "Red", -1, -1, 20000⟩

def latticeList : List ColorBlock :=
  [latticeBl 0 0, latticeBl 0 1, latticeBl 0 2, latticeBl 1 0, latticeBl 1 1,
   latticeBl 1 2, latticeBl 2 0, latticeBl 2 1, latticeBl 2 2]

/-! ### The face renderer (main.cpp lines 283-354) -/

/-- `cv::Mat` as a pixel buffer: dimensions plus a partial pixel map
(`none` = an undefined pixel, which the modelled constructors never
produce). -/
structure Mat where
  rows : Nat
  cols : Nat
  px : Nat → Nat → Option BGR

/-- `Mat(rows, cols, CV_8UC3, fill)`: every in-bounds pixel defined. -/
def mkMat (rows cols : Nat) (c : BGR) : Mat :=
  ⟨rows, cols, fun y x => if y < rows ∧ x < cols then some c else none⟩

/-- `cv::rectangle(..., FILLED)`: writes `c` on the clipped rectangle. -/
def fillRect (m : Mat) (rx ry rw rh : Nat) (c : BGR) : Mat :=
  { m with px := fun y x =>
      if ry ≤ y ∧ y < ry + rh ∧ rx ≤ x ∧ x < rx + rw ∧ y < m.rows ∧ x < m.cols
      then some c else m.px y x }

/-- `cv::rectangle(..., thickness = t)`: writes `c` on the border band. -/
def strokeRect (m : Mat) (rx ry rw rh t : Nat) (c : BGR) : Mat :=
  { m with px := fun y x =>
      if ry ≤ y ∧ y < ry + rh ∧ rx ≤ x ∧ x < rx + rw ∧
          (y < ry + t ∨ ry + rh ≤ y + t ∨ x < rx + t ∨ rx + rw ≤ x + t) ∧
          y < m.rows ∧ x < m.cols
      then some c else m.px y x }

/-- `cv::putText` at baseline origin (ox, oy): the glyph raster is
library-internal, modelled as writes of the text color within a bounded box
above-and-right of the origin; only the totality and locality of the write
matter to the theorems below. -/
def putTextBox (m : Mat) (ox oy : Nat) (c : BGR) : Mat :=
  { m with px := fun y x =>
      if oy ≤ y + 16 ∧ y ≤ oy ∧ ox ≤ x ∧ x < ox + 13 ∧ y < m.rows ∧ x < m.cols
      then some c else m.px y x }

/-- The `colorCodeMap.find(colorCode)` lookup (main.cpp line 310). -/
def lookupCode (mp : List (Char × BGR)) (code : Char) : Option BGR :=
  (mp.find? (fun p => p.1 == code)).map Prod.snd

/-- Cell fill selection (main.cpp lines 308–311): default neutral gray
(128,128,128), replaced by the mapped display color when the code is
known. -/
def cellBlockColor (mp : List (Char × BGR)) (code : Char) : BGR :=
  (lookupCode mp code).getD ⟨128, 128, 128⟩

/-- `CubeVisualizer::blockSize` (main.cpp line 285). -/
def blockSize : Nat := 60

/-- The row-major cell traversal of the two nested loops
(main.cpp lines 304–305). -/
def cellRC : List (Nat × Nat) :=
  [(0, 0), (0, 1), (0, 2), (1, 0), (1, 1), (1, 2), (2, 0), (2, 1), (2, 2)]

/-- One iteration of the cell loop (main.cpp lines 306–338): filled block,
border stroke of thickness 2, centered code character. -/
def drawCell (mp : List (Char × BGR)) (colorMatrix : List (List Char))
    (m : Mat) (rc : Nat × Nat) : Mat :=
  let code := (colorMatrix.getD rc.1 []).getD rc.2 ' '
  let x := 10 + rc.2 * blockSize
  let y := 10 + rc.1 * blockSize
  putTextBox
    (strokeRect
      (fillRect m x y blockSize blockSize (cellBlockColor mp code))
      x y blockSize blockSize 2 ⟨50, 50, 50⟩)
    (x + blockSize / 3) (y + 2 * blockSize / 3) ⟨0, 0, 0⟩

/-- The canvas of `drawStandardFace` (main.cpp lines 294–301): light gray
background, 25 extra label rows when a face name is given. -/
def faceCanvas (faceName : String) : Mat :=
  mkMat (blockSize * 3 + 10 * 2 + (if faceName = "" then 0 else 25))
    (blockSize * 3 + 10 * 2) ⟨240, 240, 240⟩

/-- `CubeVisualizer::drawStandardFace` (main.cpp lines 291–354). -/
def drawStandardFace (colorMatrix : List (List Char))
    (colorCodeMap : List (Char × BGR)) (faceName : String) : Mat :=
  let withCells := cellRC.foldl (drawCell colorCodeMap colorMatrix)
    (faceCanvas faceName)
  if faceName = "" then withCells
  else putTextBox withCells 10 (blockSize * 3 + 10 * 2 + 25 - 5) ⟨0, 0, 0⟩

/-- Every in-bounds pixel is defined. -/
def DefinedMat (m : Mat) : Prop :=
  ∀ y x, y < m.rows → x < m.cols → (m.px y x).isSome

/-! ### Theorems -/

/-! ### Shared helper lemmas -/

/-- The area filter accepts exactly the closed interval [15000, 150000]. -/
lemma passes_iff (c : List (Int × Int)) :
    passesAreaFilter c = true ↔
      15000 ≤ contourArea c ∧ contourArea c ≤ 150000 := by
  simp [passesAreaFilter, not_lt]

/-- `contourArea` is the absolute value of the signed moment `m00`. -/
lemma contourArea_eq_abs_m00 (c : List (Int × Int)) :
    contourArea c = |m00 c| := by
  unfold contourArea m00
  rw [abs_div]
  norm_num

/-- A fold whose step is the identity on elements rejected by `p` equals the
fold over the `p`-filtered list. -/
lemma foldl_filter_eq {α β : Type} (f : β → α → β) (p : α → Bool)
    (h : ∀ m a, p a = false → f m a = m) :
    ∀ (l : List α) (init : β), l.foldl f init = (l.filter p).foldl f init := by
  intro l
  induction l with
  | nil => intro init; rfl
  | cons a t ih =>
    intro init
    by_cases hp : p a
    · simp only [List.filter_cons, hp, if_pos, List.foldl_cons]
      exact ih (f init a)
    · have hpf : p a = false := by simpa using hp
      simp only [List.filter_cons, hpf, Bool.false_eq_true, if_false,
        List.foldl_cons, h init a hpf]
      exact ih init

/-- A foldl preserves any invariant preserved by each step. -/
lemma foldl_invariant {α β : Type} (P : β → Prop) (f : β → α → β)
    (l : List α) (init : β) (h0 : P init)
    (hstep : ∀ m a, a ∈ l → P m → P (f m a)) : P (l.foldl f init) := by
  induction l generalizing init with
  | nil => exact h0
  | cons a t ih =>
    exact ih (f init a) (hstep init a (by simp) h0)
      (fun m b hb hm => hstep m b (by simp [hb]) hm)

/-- Every character of `m.getD r []` comes from some row of `m`. -/
lemma mem_getD_mem {m : List (List Char)} {r : Nat} {a : Char}
    (ha : a ∈ m.getD r []) : ∃ row ∈ m, a ∈ row := by
  rcases Nat.lt_or_ge r m.length with h | h
  · refine ⟨m[r], List.getElem_mem h, ?_⟩
    rwa [List.getD_eq_getElem m [] h] at ha
  · rw [List.getD_eq_default] at ha
    · cases ha
    · exact h

/-- A calibrated color name maps to one of the six codes. -/
lemma colorCodes_mem {name : String}
    (h : name ∈ ["Red", "Yellow", "Green", "Blue", "White", "Pink"]) :
    colorCodes name ∈ ['R', 'Y', 'G', 'B', 'W', 'P'] := by
  fin_cases h <;> decide

/-- C1: FALSIFIED AS STATED — with eight detected regions, grid assignment
is indeed skipped (main.cpp lines 172–181), but `createColorMatrix`
(lines 245–255) still reads each block's uninitialized `row`/`col`; when a
block's indeterminate values lie inside {0,1,2}×{0,1,2} its color code is
written into the matrix, so the matrix is not fully blank. -/
theorem createColorMatrix_mismatch_not_blank :
    mismatchBlocks.length = 8 ∧
    createColorMatrix (analyzeCubeFace mismatchBlocks) =
      [['R', ' ', ' '], [' ', ' ', ' '], [' ', ' ', ' ']] ∧
    createColorMatrix (analyzeCubeFace mismatchBlocks) ≠ blankMatrix := by
  refine ⟨by with_unfolding_all decide, by with_unfolding_all decide,
    by with_unfolding_all decide⟩

/-! ### C2: zero-area contours and the centroid division -/

/-- C2: the centroid computation (main.cpp lines 144–145) divides the
spatial moments by `m00` with no explicit guard, but a contour with zero
area moments is already skipped as a single candidate by the area filter
(line 131), and conversely every contour that passes the filter has
`|m00| ≥ 15000 ≠ 0`, so the division by `m00` never sees a zero divisor. -/
theorem zero_area_contour_skipped (c : List (Int × Int)) :
    (m00 c = 0 → passesAreaFilter c = false) ∧
    (passesAreaFilter c = true → m00 c ≠ 0) := by
  constructor
  · intro h0
    have hA : contourArea c = 0 := by
      rw [contourArea_eq_abs_m00, h0, abs_zero]
    simp [passesAreaFilter, hA]
  · intro hp h0
    have h := (passes_iff c).1 hp
    rw [contourArea_eq_abs_m00, h0, abs_zero] at h
    exact absurd h.1 (by norm_num)

theorem zero_area_contour_skipped_witness :
    m00 degenerateContour = 0 ∧ passesAreaFilter degenerateContour = false :=
  ⟨by with_unfolding_all decide,
   (zero_area_contour_skipped degenerateContour).1 (by with_unfolding_all decide)⟩

/-! ### C6: the area filter boundary -/

/-- C6: the filter `if (area < 15000 || area > 150000) continue;`
(main.cpp line 131) accepts a contour exactly when its area lies in the
inclusive interval [15000, 150000]; both boundary values are accepted. -/
theorem passesAreaFilter_boundary (c : List (Int × Int)) :
    passesAreaFilter c = true ↔
      15000 ≤ contourArea c ∧ contourArea c ≤ 150000 :=
  passes_iff c

/-- C7 counterexample: when Front is skipped, `allColorMatrices` is
compacted ([Back, Left, Right, Up, Down]) and the fixed reindexing
`{4, 2, 0, 3, 1, 5}` (main.cpp line 548) is applied to the compacted list,
so net position 0 receives the Down matrix, not the Up matrix — even though
the Up face itself loaded fine. -/
theorem reorderForNet_skip_misplaced :
    skipLoaded 4 = true ∧
    (reorderForNet (collectMatrices skipLoaded skipMats))[0]? ≠
      some (skipMats 4) := by
  constructor
  · decide
  · decide

/-- C7 (amended): in a run where all six face images load, the list handed
to `drawCubeNet` is the capture-order matrices (Front, Back, Left, Right,
Up, Down) reordered so position 0 holds Up (capture index 4), 1 Left (2),
2 Front (0), 3 Right (3), 4 Back (1), 5 Down (5). -/
theorem reorderForNet_all_loaded {M : Type} (loaded : Fin 6 → Bool)
    (mats : Fin 6 → M) (h : ∀ i, loaded i = true) :
    reorderForNet (collectMatrices loaded mats) =
      [mats 4, mats 2, mats 0, mats 3, mats 1, mats 5] := by
  have hf : (List.finRange 6).filter (fun i => loaded i) = List.finRange 6 :=
    List.filter_eq_self.mpr (fun a _ => h a)
  have hfr : (List.finRange 6).filter (fun i => loaded i) = [0, 1, 2, 3, 4, 5] :=
    hf.trans (by decide)
  simp [reorderForNet, collectMatrices, hfr, netOrder]

theorem reorderForNet_all_loaded_witness :
    reorderForNet (collectMatrices (fun _ => true) (fun i : Fin 6 => i.val)) =
      [4, 2, 0, 3, 1, 5] :=
  reorderForNet_all_loaded (fun _ => true) (fun i => i.val) (fun _ => rfl)

/-- `setCell` keeps every cell inside `allowed` when the written character
is allowed. -/
lemma setCell_invariant {allowed : List Char} {m : List (List Char)}
    {r c : Nat} {ch : Char}
    (hm : ∀ row ∈ m, ∀ a ∈ row, a ∈ allowed) (hch : ch ∈ allowed) :
    ∀ row ∈ setCell m r c ch, ∀ a ∈ row, a ∈ allowed := by
  intro row hrow a ha
  unfold setCell at hrow
  rcases List.mem_or_eq_of_mem_set hrow with hrow' | rfl
  · exact hm row hrow' a ha
  · rcases List.mem_or_eq_of_mem_set ha with ha' | rfl
    · obtain ⟨row', hrow', ha''⟩ := mem_getD_mem ha'
      exact hm row' hrow' a ha''
    · exact hch

/-- C10: when every block's color name is one of the six calibrated names,
every cell of `createColorMatrix` is either the sentinel blank or one of
the six codes, and blocks whose `row`/`col` indices fall outside
{0,1,2}×{0,1,2} are silently ignored: filtering them away first yields the
identical matrix (main.cpp lines 245–255). -/
theorem createColorMatrix_cells_valid (blocks : List ColorBlock)
    (h : ∀ b ∈ blocks, b.colorName ∈ sixNames) :
    (∀ row ∈ createColorMatrix blocks, ∀ ch ∈ row,
        ch ∈ [' ', 'R', 'Y', 'G', 'B', 'W', 'P']) ∧
    createColorMatrix blocks =
      createColorMatrix (blocks.filter inGridRange) := by
  constructor
  · unfold createColorMatrix
    refine foldl_invariant
      (fun m => ∀ row ∈ m, ∀ a ∈ row, a ∈ [' ', 'R', 'Y', 'G', 'B', 'W', 'P'])
      _ blocks blankMatrix (by decide) ?_
    intro m b hb hm
    by_cases hc : 0 ≤ b.row ∧ b.row < 3 ∧ 0 ≤ b.col ∧ b.col < 3
    · rw [if_pos hc]
      refine setCell_invariant hm ?_
      have := colorCodes_mem (h b hb)
      simp only [List.mem_cons] at this ⊢
      tauto
    · rw [if_neg hc]
      exact hm
  · unfold createColorMatrix
    refine foldl_filter_eq _ inGridRange ?_ blocks blankMatrix
    intro m b hb
    rw [if_neg]
    intro hc
    rw [inGridRange] at hb
    simp only [Bool.and_eq_false_iff, decide_eq_false_iff_not, not_le, not_lt] at hb
    rcases hc with ⟨h1, h2, h3, h4⟩
    rcases hb with ((hb | hb) | hb) | hb <;> omega

theorem createColorMatrix_cells_valid_witness :
    (∀ row ∈ createColorMatrix cmBlocksW, ∀ ch ∈ row,
        ch ∈ [' ', 'R', 'Y', 'G', 'B', 'W', 'P']) ∧
    createColorMatrix cmBlocksW =
      createColorMatrix (cmBlocksW.filter inGridRange) :=
  createColorMatrix_cells_valid cmBlocksW (by with_unfolding_all decide)

/-! ### Sorting machinery for the grid-assignment claims -/

/-- The result of `insertionSort` over the reflexive key order is weakly
key-sorted. -/
lemma insertionSort_key_sorted {α : Type} (key : α → ℚ) (l : List α) :
    (List.insertionSort (fun a b => key a ≤ key b) l).Pairwise
      (fun a b => key a ≤ key b) := by
  haveI : IsTotal α (fun a b => key a ≤ key b) := ⟨fun a b => le_total _ _⟩
  haveI : IsTrans α (fun a b => key a ≤ key b) :=
    ⟨fun a b c hab hbc => le_trans hab hbc⟩
  exact List.sorted_insertionSort _ l

/-- A weakly key-sorted list that is a permutation of a strictly key-sorted
list equals it. -/
lemma eq_of_perm_key_sorted {α : Type} (key : α → ℚ) :
    ∀ {l' l : List α}, l.Perm l' →
      l.Pairwise (fun a b => key a ≤ key b) →
      l'.Pairwise (fun a b => key a < key b) → l = l'
  | [], l, hp, _, _ => hp.eq_nil
  | h' :: t', l, hp, hs, hs' => by
    match l with
    | [] => exact absurd hp.nil_eq (by simp)
    | h :: t =>
      have hhd : h = h' := by
        by_cases heq : h = h'
        · exact heq
        · exfalso
          have hht' : h ∈ h' :: t' := hp.mem_iff.mp (by simp)
          have hh't : h' ∈ h :: t := hp.mem_iff.mpr (by simp)
          have h1 : key h' < key h := by
            rcases List.mem_cons.mp hht' with h | hmem
            · exact absurd h heq
            · exact (List.pairwise_cons.mp hs').1 h hmem
          have h2 : key h ≤ key h' := by
            rcases List.mem_cons.mp hh't with h | hmem
            · exact absurd h.symm heq
            · exact (List.pairwise_cons.mp hs).1 h' hmem
          exact absurd (lt_of_le_of_lt h2 h1) (lt_irrefl _)
      subst hhd
      have htl : t.Perm t' := hp.cons_inv
      have := eq_of_perm_key_sorted key htl
        (List.pairwise_cons.mp hs).2 (List.pairwise_cons.mp hs').2
      rw [this]

lemma assignCols_length (l : List ColorBlock) (i : Nat) :
    (assignCols l i).length = l.length := by
  induction l generalizing i with
  | nil => rfl
  | cons b t ih => simp [assignCols, ih]

/-- Elements of `assignCols l i` are the elements of `l` with only the
`col` field rewritten, to a value in `[i, i + l.length)`. -/
lemma mem_assignCols {b : ColorBlock} :
    ∀ {l : List ColorBlock} {i : Nat}, b ∈ assignCols l i →
      ∃ a ∈ l, b.center = a.center ∧ b.colorName = a.colorName ∧
        b.row = a.row ∧ b.area = a.area ∧
        (i : Int) ≤ b.col ∧ b.col < (i : Int) + l.length
  | [], i, h => by simp [assignCols] at h
  | a :: t, i, h => by
    rcases List.mem_cons.mp h with rfl | hmem
    · exact ⟨a, by simp, rfl, rfl, rfl, rfl, le_refl _, by
        simp only [List.length_cons]
        omega⟩
    · obtain ⟨a', ha', h1, h2, h3, h4, h5, h6⟩ := mem_assignCols hmem
      refine ⟨a', by simp [ha'], h1, h2, h3, h4, ?_, ?_⟩
      · omega
      · simp only [List.length_cons]
        omega

lemma assignCols_pairwise_col :
    ∀ (l : List ColorBlock) (i : Nat),
      (assignCols l i).Pairwise (fun x y => x.col < y.col)
  | [], _ => List.Pairwise.nil
  | b :: t, i => by
    rw [assignCols, List.pairwise_cons]
    refine ⟨?_, assignCols_pairwise_col t (i + 1)⟩
    intro y hy
    obtain ⟨-, -, -, -, -, -, h5, -⟩ := mem_assignCols hy
    simp only
    omega

/-- `setRow` always produces a row index in {0, 1, 2}. -/
lemma setRow_row_cases (t1 t2 : ℚ) (b : ColorBlock) :
    (setRow t1 t2 b).row = 0 ∨ (setRow t1 t2 b).row = 1 ∨
      (setRow t1 t2 b).row = 2 := by
  unfold setRow
  split_ifs <;> simp

lemma setRow_center (t1 t2 : ℚ) (b : ColorBlock) :
    (setRow t1 t2 b).center = b.center := by
  unfold setRow
  split_ifs <;> rfl

lemma rowSorted_length (l : List ColorBlock) (r : Int) :
    (rowSorted l r).length = (l.filter (fun b => b.row == r)).length := by
  unfold rowSorted
  rw [assignCols_length, List.length_insertionSort]

/-- Every element of `rowSorted l r` carries row `r` and a column rank in
`[0, number of row-r blocks)`. -/
lemma mem_rowSorted {b : ColorBlock} {l : List ColorBlock} {r : Int}
    (hb : b ∈ rowSorted l r) :
    b.row = r ∧ 0 ≤ b.col ∧ b.col < (l.filter (fun x => x.row == r)).length := by
  unfold rowSorted at hb
  obtain ⟨a, ha, -, -, hrow, -, h5, h6⟩ := mem_assignCols hb
  have ha' : a ∈ l.filter (fun x => x.row == r) := (List.mem_insertionSort _).mp ha
  have har : a.row = r := by
    have := List.of_mem_filter ha'
    simpa using this
  rw [List.length_insertionSort] at h6
  refine ⟨hrow.trans har, by simpa using h5, ?_⟩
  omega

lemma rowSorted_pairwise (l : List ColorBlock) (r : Int) :
    (rowSorted l r).Pairwise (fun x y => x.col < y.col) :=
  assignCols_pairwise_col _ 0

/-- The three row classes partition a list whose rows all lie in {0,1,2}. -/
lemma three_row_length (l : List ColorBlock)
    (h : ∀ b ∈ l, b.row = 0 ∨ b.row = 1 ∨ b.row = 2) :
    (l.filter (fun b => b.row == 0)).length +
      (l.filter (fun b => b.row == 1)).length +
      (l.filter (fun b => b.row == 2)).length = l.length := by
  induction l with
  | nil => rfl
  | cons a t ih =>
    have ht := ih (fun b hb => h b (List.mem_cons_of_mem a hb))
    rcases h a (List.mem_cons_self a t) with ha | ha | ha <;>
      simp [List.filter_cons, ha] <;> omega

/-- C3 counterexample: on nine regions with a common centroid y (all of
whose blocks get row 2, main.cpp lines 201–215), column ranks reach 8, so
`col ∈ {0,1,2}` fails: the fourth output block has (row, col) = (2, 3). -/
theorem assignToGrid_col_out_of_range :
    flatRowBlocks.length = 9 ∧
    ((assignToGrid flatRowBlocks).map (fun b => (b.row, b.col))) =
      [(2, 0), (2, 1), (2, 2), (2, 3), (2, 4), (2, 5), (2, 6), (2, 7), (2, 8)] := by
  constructor
  · with_unfolding_all decide
  · with_unfolding_all decide

/-- C3 (amended): for every input of exactly nine regions, grid assignment
returns nine regions, gives each a row in {0,1,2} and a column rank in
[0, 9), makes all (row, col) pairs pairwise distinct, and returns the
regions sorted in strict row-major order.  (Columns land in {0,1,2} only
when each row class receives at most three regions — e.g. for a proper
3×3 lattice — which the threshold heuristic does not guarantee.) -/
theorem assignToGrid_grid_props (blocks : List ColorBlock)
    (h9 : blocks.length = 9) :
    (assignToGrid blocks).length = 9 ∧
    (∀ b ∈ assignToGrid blocks,
        (b.row = 0 ∨ b.row = 1 ∨ b.row = 2) ∧ 0 ≤ b.col ∧ b.col < 9) ∧
    ((assignToGrid blocks).map (fun b => (b.row, b.col))).Nodup ∧
    (assignToGrid blocks).Pairwise
      (fun a b => a.row < b.row ∨ (a.row = b.row ∧ a.col < b.col)) := by
  have hgrid : assignToGrid blocks =
      rowSorted (blocks.map (setRow (rowThresholds blocks).1
        (rowThresholds blocks).2)) 0 ++
      rowSorted (blocks.map (setRow (rowThresholds blocks).1
        (rowThresholds blocks).2)) 1 ++
      rowSorted (blocks.map (setRow (rowThresholds blocks).1
        (rowThresholds blocks).2)) 2 := by
    unfold assignToGrid
    exact rfl
  set rowed := blocks.map (setRow (rowThresholds blocks).1
    (rowThresholds blocks).2) with hrowed
  have hall : ∀ b ∈ rowed, b.row = 0 ∨ b.row = 1 ∨ b.row = 2 := by
    intro b hb
    obtain ⟨a, -, rfl⟩ := List.mem_map.mp hb
    exact setRow_row_cases _ _ _
  have hrlen : rowed.length = 9 := by
    rw [hrowed, List.length_map, h9]
  have hflen : ∀ r : Int, (rowed.filter (fun b => b.row == r)).length ≤ 9 := by
    intro r
    calc (rowed.filter (fun b => b.row == r)).length
        ≤ rowed.length := List.length_filter_le _ _
      _ = 9 := hrlen
  have hcross : ∀ (r s : Int), r < s → ∀ a ∈ rowSorted rowed r,
      ∀ b ∈ rowSorted rowed s,
      a.row < b.row ∨ (a.row = b.row ∧ a.col < b.col) := by
    intro r s hrs a ha b hb
    left
    rw [(mem_rowSorted ha).1, (mem_rowSorted hb).1]
    exact hrs
  have hpwr : ∀ r : Int, (rowSorted rowed r).Pairwise
      (fun a b => a.row < b.row ∨ (a.row = b.row ∧ a.col < b.col)) := by
    intro r
    refine (rowSorted_pairwise rowed r).imp_of_mem ?_
    intro a b ha hb hcol
    exact Or.inr ⟨(mem_rowSorted ha).1.trans (mem_rowSorted hb).1.symm, hcol⟩
  have hpw : (assignToGrid blocks).Pairwise
      (fun a b => a.row < b.row ∨ (a.row = b.row ∧ a.col < b.col)) := by
    rw [hgrid]
    refine List.pairwise_append.mpr ⟨List.pairwise_append.mpr
      ⟨hpwr 0, hpwr 1, hcross 0 1 (by norm_num)⟩, hpwr 2, ?_⟩
    intro a ha b hb
    rcases List.mem_append.mp ha with ha | ha
    · exact hcross 0 2 (by norm_num) a ha b hb
    · exact hcross 1 2 (by norm_num) a ha b hb
  refine ⟨?_, ?_, ?_, hpw⟩
  · rw [hgrid]
    simp only [List.length_append, rowSorted_length]
    have h3 := three_row_length rowed hall
    omega
  · intro b hb
    rw [hgrid] at hb
    have hone : ∃ r : Int, (r = 0 ∨ r = 1 ∨ r = 2) ∧ b ∈ rowSorted rowed r := by
      rcases List.mem_append.mp hb with hb | hb
      · rcases List.mem_append.mp hb with hb | hb
        · exact ⟨0, by norm_num, hb⟩
        · exact ⟨1, by norm_num, hb⟩
      · exact ⟨2, by norm_num, hb⟩
    obtain ⟨r, hr, hbr⟩ := hone
    obtain ⟨hrow, hc0, hclt⟩ := mem_rowSorted hbr
    have := hflen r
    refine ⟨?_, hc0, by omega⟩
    rw [hrow]
    exact hr
  · have hne : ((assignToGrid blocks).map (fun b => (b.row, b.col))).Pairwise
        (fun p q => p ≠ q) := by
      refine List.pairwise_map.mpr (hpw.imp ?_)
      intro a b hab heq
      have h1 : a.row = b.row := congrArg Prod.fst heq
      have h2 : a.col = b.col := congrArg Prod.snd heq
      rcases hab with h | ⟨-, h⟩ <;> omega
    exact hne

theorem assignToGrid_grid_props_witness :
    (assignToGrid gridWitnessBlocks).length = 9 ∧
    (∀ b ∈ assignToGrid gridWitnessBlocks,
        (b.row = 0 ∨ b.row = 1 ∨ b.row = 2) ∧ 0 ≤ b.col ∧ b.col < 9) ∧
    ((assignToGrid gridWitnessBlocks).map (fun b => (b.row, b.col))).Nodup ∧
    (assignToGrid gridWitnessBlocks).Pairwise
      (fun a b => a.row < b.row ∨ (a.row = b.row ∧ a.col < b.col)) :=
  assignToGrid_grid_props gridWitnessBlocks (by with_unfolding_all decide)

/-- C5 counterexample: the x-sort inside a row (main.cpp lines 227–230) uses
the strict comparator `a->center.x < b->center.x`, which does not order
ties; when two same-row regions share a centroid x, their column ranks
depend on the input order, so a permutation of the nine regions changes the
final sorted grid. -/
theorem assignToGrid_order_dependent :
    tieBlocks.Perm tieBlocks' ∧ tieBlocks.length = 9 ∧
    assignToGrid tieBlocks ≠ assignToGrid tieBlocks' := by
  refine ⟨?_, ?_, ?_⟩
  · unfold tieBlocks tieBlocks'
    exact List.Perm.swap _ _ _
  · with_unfolding_all decide
  · with_unfolding_all decide

/-- The row thresholds are a function of the multiset of centroid
y-coordinates only, hence permutation-invariant. -/
lemma rowThresholds_perm {l l' : List ColorBlock} (hp : l.Perm l') :
    rowThresholds l = rowThresholds l' := by
  have h1 : List.insertionSort (fun a b : ℚ => a ≤ b) (l.map (fun b => b.center.2)) =
      List.insertionSort (fun a b : ℚ => a ≤ b) (l'.map (fun b => b.center.2)) := by
    apply List.eq_of_perm_of_sorted (r := fun a b : ℚ => a ≤ b)
    · exact (List.perm_insertionSort _ _).trans
        ((hp.map _).trans (List.perm_insertionSort _ _).symm)
    · exact insertionSort_key_sorted (fun q : ℚ => q) _
    · exact insertionSort_key_sorted (fun q : ℚ => q) _
  unfold rowThresholds
  rw [h1]

/-- One row pass is permutation-invariant when the row's centroid
x-coordinates are pairwise distinct. -/
lemma rowSorted_perm_eq {l l' : List ColorBlock} (hp : l.Perm l') (r : Int)
    (hx : ((l.filter (fun b => b.row == r)).map (fun b => b.center.1)).Nodup) :
    rowSorted l r = rowSorted l' r := by
  unfold rowSorted
  have hpf : (l.filter (fun b => b.row == r)).Perm
      (l'.filter (fun b => b.row == r)) := hp.filter _
  have hAB : (List.insertionSort (fun a b => a.center.1 ≤ b.center.1)
        (l.filter (fun b => b.row == r))).Perm
      (List.insertionSort (fun a b => a.center.1 ≤ b.center.1)
        (l'.filter (fun b => b.row == r))) :=
    (List.perm_insertionSort _ _).trans
      (hpf.trans (List.perm_insertionSort _ _).symm)
  have hsortA := insertionSort_key_sorted (fun b : ColorBlock => b.center.1)
    (l.filter (fun b => b.row == r))
  have hsortB := insertionSort_key_sorted (fun b : ColorBlock => b.center.1)
    (l'.filter (fun b => b.row == r))
  have hndB : ((List.insertionSort (fun a b => a.center.1 ≤ b.center.1)
      (l'.filter (fun b => b.row == r))).map
        (fun b => b.center.1)).Nodup := by
    refine (hx.perm ?_)
    exact (hpf.trans (List.perm_insertionSort _ _).symm).map _
  have hneB : (List.insertionSort (fun a b => a.center.1 ≤ b.center.1)
      (l'.filter (fun b => b.row == r))).Pairwise
        (fun a b => a.center.1 ≠ b.center.1) :=
    List.pairwise_map.mp hndB
  have hstrictB : (List.insertionSort (fun a b => a.center.1 ≤ b.center.1)
      (l'.filter (fun b => b.row == r))).Pairwise
        (fun a b => a.center.1 < b.center.1) :=
    (hsortB.and hneB).imp (fun h => lt_of_le_of_ne h.1 h.2)
  rw [eq_of_perm_key_sorted (fun b : ColorBlock => b.center.1) hAB hsortA hstrictB]

/-- C5 (amended): grid assignment is order-invariant provided that, within
each assigned row class, the centroid x-coordinates are pairwise distinct
(without that proviso the x-sort tie order, unspecified for `std::sort`,
leaks the input order into the column ranks — see the counterexample). -/
theorem assignToGrid_perm_invariant (blocks blocks' : List ColorBlock)
    (h9 : blocks.length = 9) (hperm : blocks.Perm blocks')
    (hx : rowXsDistinct blocks) :
    assignToGrid blocks = assignToGrid blocks' := by
  have ht := rowThresholds_perm hperm
  have hgrid : ∀ bs : List ColorBlock, assignToGrid bs =
      rowSorted (bs.map (setRow (rowThresholds bs).1 (rowThresholds bs).2)) 0 ++
      rowSorted (bs.map (setRow (rowThresholds bs).1 (rowThresholds bs).2)) 1 ++
      rowSorted (bs.map (setRow (rowThresholds bs).1 (rowThresholds bs).2)) 2 := by
    intro bs
    unfold assignToGrid
    exact rfl
  rw [hgrid, hgrid, ← ht]
  have hpm : (blocks.map (setRow (rowThresholds blocks).1
      (rowThresholds blocks).2)).Perm
      (blocks'.map (setRow (rowThresholds blocks).1
        (rowThresholds blocks).2)) := hperm.map _
  rw [rowSorted_perm_eq hpm 0 (hx 0 (by norm_num)),
    rowSorted_perm_eq hpm 1 (hx 1 (by norm_num)),
    rowSorted_perm_eq hpm 2 (hx 2 (by norm_num))]

theorem assignToGrid_perm_invariant_witness :
    assignToGrid gridWitnessBlocks = assignToGrid gridWitnessBlocksPerm :=
  assignToGrid_perm_invariant gridWitnessBlocks gridWitnessBlocksPerm
    (by with_unfolding_all decide)
    (by unfold gridWitnessBlocks gridWitnessBlocksPerm
        exact List.Perm.swap _ _ _)
    (by with_unfolding_all decide)

/-! ### C4: perfect-lattice recovery -/

/-- C4: nine regions forming a perfect 3×3 lattice (three y-levels
`Y 0 < Y 1 < Y 2` with three regions each, strictly increasing x within each
level), presented in any input order, are restored to their exact original
row/column labeling, and the two row thresholds sit halfway between the
sorted centroid-y values at indices 2/3 and 5/6 — i.e. at the midpoints of
consecutive lattice levels (main.cpp lines 194–240). -/
theorem assignToGrid_lattice_recovery
    (bl : Fin 3 → Fin 3 → ColorBlock) (Y : Fin 3 → ℚ) (X : Fin 3 → Fin 3 → ℚ)
    (hcenter : ∀ r c, (bl r c).center = (X r c, Y r))
    (hY01 : Y 0 < Y 1) (hY12 : Y 1 < Y 2)
    (hX : ∀ r, X r 0 < X r 1 ∧ X r 1 < X r 2)
    (L : List ColorBlock)
    (hL : L.Perm [bl 0 0, bl 0 1, bl 0 2, bl 1 0, bl 1 1, bl 1 2,
      bl 2 0, bl 2 1, bl 2 2]) :
    rowThresholds L = (Y 0 + (Y 1 - Y 0) / 2, Y 1 + (Y 2 - Y 1) / 2) ∧
    assignToGrid L =
      [{bl 0 0 with row := 0, col := 0}, {bl 0 1 with row := 0, col := 1},
       {bl 0 2 with row := 0, col := 2}, {bl 1 0 with row := 1, col := 0},
       {bl 1 1 with row := 1, col := 1}, {bl 1 2 with row := 1, col := 2},
       {bl 2 0 with row := 2, col := 0}, {bl 2 1 with row := 2, col := 1},
       {bl 2 2 with row := 2, col := 2}] := by
  have hy : ∀ r c, (bl r c).center.2 = Y r := fun r c => by rw [hcenter]
  have hx1 : ∀ r c, (bl r c).center.1 = X r c := fun r c => by rw [hcenter]
  have hmapy : [bl 0 0, bl 0 1, bl 0 2, bl 1 0, bl 1 1, bl 1 2,
      bl 2 0, bl 2 1, bl 2 2].map (fun b => b.center.2) =
      [Y 0, Y 0, Y 0, Y 1, Y 1, Y 1, Y 2, Y 2, Y 2] := by
    simp [hy]
  have hperm_y : (L.map (fun b => b.center.2)).Perm
      [Y 0, Y 0, Y 0, Y 1, Y 1, Y 1, Y 2, Y 2, Y 2] := by
    rw [← hmapy]
    exact hL.map _
  have hsorted_target : List.Pairwise (fun a b : ℚ => a ≤ b)
      [Y 0, Y 0, Y 0, Y 1, Y 1, Y 1, Y 2, Y 2, Y 2] := by
    rw [← List.chain'_iff_pairwise]
    simp only [List.chain'_cons, List.chain'_singleton, and_true]
    exact ⟨le_refl _, le_refl _, hY01.le, le_refl _, le_refl _, hY12.le,
      le_refl _, le_refl _⟩
  have hysort : List.insertionSort (fun a b : ℚ => a ≤ b)
      (L.map (fun b => b.center.2)) =
      [Y 0, Y 0, Y 0, Y 1, Y 1, Y 1, Y 2, Y 2, Y 2] :=
    List.eq_of_perm_of_sorted
      ((List.perm_insertionSort _ _).trans hperm_y)
      (insertionSort_key_sorted (fun q : ℚ => q) _) hsorted_target
  have hthr : rowThresholds L =
      (Y 0 + (Y 1 - Y 0) / 2, Y 1 + (Y 2 - Y 1) / 2) := by
    unfold rowThresholds
    rw [hysort]
    exact rfl
  refine ⟨hthr, ?_⟩
  have hrow0 : ∀ c, setRow (Y 0 + (Y 1 - Y 0) / 2) (Y 1 + (Y 2 - Y 1) / 2)
      (bl 0 c) = {bl 0 c with row := 0} := by
    intro c
    unfold setRow
    rw [hy, if_pos (by linarith)]
  have hrow1 : ∀ c, setRow (Y 0 + (Y 1 - Y 0) / 2) (Y 1 + (Y 2 - Y 1) / 2)
      (bl 1 c) = {bl 1 c with row := 1} := by
    intro c
    unfold setRow
    rw [hy, if_neg (by linarith), if_pos (by linarith)]
  have hrow2 : ∀ c, setRow (Y 0 + (Y 1 - Y 0) / 2) (Y 1 + (Y 2 - Y 1) / 2)
      (bl 2 c) = {bl 2 c with row := 2} := by
    intro c
    unfold setRow
    rw [hy, if_neg (by linarith), if_neg (by linarith)]
  have hgrid : assignToGrid L =
      rowSorted (L.map (setRow (rowThresholds L).1 (rowThresholds L).2)) 0 ++
      rowSorted (L.map (setRow (rowThresholds L).1 (rowThresholds L).2)) 1 ++
      rowSorted (L.map (setRow (rowThresholds L).1 (rowThresholds L).2)) 2 := by
    unfold assignToGrid
    exact rfl
  rw [hgrid, hthr]
  have hmaprowed : [bl 0 0, bl 0 1, bl 0 2, bl 1 0, bl 1 1, bl 1 2,
      bl 2 0, bl 2 1, bl 2 2].map
        (setRow (Y 0 + (Y 1 - Y 0) / 2) (Y 1 + (Y 2 - Y 1) / 2)) =
      [{bl 0 0 with row := 0}, {bl 0 1 with row := 0}, {bl 0 2 with row := 0},
       {bl 1 0 with row := 1}, {bl 1 1 with row := 1}, {bl 1 2 with row := 1},
       {bl 2 0 with row := 2}, {bl 2 1 with row := 2}, {bl 2 2 with row := 2}] := by
    simp [hrow0, hrow1, hrow2]
  have hrowedperm : (L.map (setRow (Y 0 + (Y 1 - Y 0) / 2)
      (Y 1 + (Y 2 - Y 1) / 2))).Perm
      [{bl 0 0 with row := 0}, {bl 0 1 with row := 0}, {bl 0 2 with row := 0},
       {bl 1 0 with row := 1}, {bl 1 1 with row := 1}, {bl 1 2 with row := 1},
       {bl 2 0 with row := 2}, {bl 2 1 with row := 2}, {bl 2 2 with row := 2}] := by
    rw [← hmaprowed]
    exact hL.map _
  have hfilter0 : ([{bl 0 0 with row := 0}, {bl 0 1 with row := 0},
      {bl 0 2 with row := 0},
      {bl 1 0 with row := 1}, {bl 1 1 with row := 1}, {bl 1 2 with row := 1},
      {bl 2 0 with row := 2}, {bl 2 1 with row := 2},
      {bl 2 2 with row := 2}].filter (fun b => b.row == (0 : Int))) =
      [{bl 0 0 with row := 0}, {bl 0 1 with row := 0}, {bl 0 2 with row := 0}] := by
    simp [List.filter]
  have hfilter1 : ([{bl 0 0 with row := 0}, {bl 0 1 with row := 0},
      {bl 0 2 with row := 0},
      {bl 1 0 with row := 1}, {bl 1 1 with row := 1}, {bl 1 2 with row := 1},
      {bl 2 0 with row := 2}, {bl 2 1 with row := 2},
      {bl 2 2 with row := 2}].filter (fun b => b.row == (1 : Int))) =
      [{bl 1 0 with row := 1}, {bl 1 1 with row := 1}, {bl 1 2 with row := 1}] := by
    simp [List.filter]
  have hfilter2 : ([{bl 0 0 with row := 0}, {bl 0 1 with row := 0},
      {bl 0 2 with row := 0},
      {bl 1 0 with row := 1}, {bl 1 1 with row := 1}, {bl 1 2 with row := 1},
      {bl 2 0 with row := 2}, {bl 2 1 with row := 2},
      {bl 2 2 with row := 2}].filter (fun b => b.row == (2 : Int))) =
      [{bl 2 0 with row := 2}, {bl 2 1 with row := 2}, {bl 2 2 with row := 2}] := by
    simp [List.filter]
  have hs0 : List.insertionSort (fun a b : ColorBlock => a.center.1 ≤ b.center.1)
      ((L.map (setRow (Y 0 + (Y 1 - Y 0) / 2) (Y 1 + (Y 2 - Y 1) / 2))).filter
        (fun b => b.row == (0 : Int))) =
      [{bl 0 0 with row := 0}, {bl 0 1 with row := 0}, {bl 0 2 with row := 0}] := by
    apply eq_of_perm_key_sorted (fun b : ColorBlock => b.center.1)
    · rw [← hfilter0]
      exact (List.perm_insertionSort _ _).trans (hrowedperm.filter _)
    · exact insertionSort_key_sorted _ _
    · have e01 : (bl 0 0).center.1 < (bl 0 1).center.1 := by
        rw [hx1, hx1]; exact (hX 0).1
      have e12 : (bl 0 1).center.1 < (bl 0 2).center.1 := by
        rw [hx1, hx1]; exact (hX 0).2
      have e02 : (bl 0 0).center.1 < (bl 0 2).center.1 := e01.trans e12
      simp only [List.pairwise_cons, List.mem_cons, List.not_mem_nil, or_false,
        forall_eq_or_imp, forall_eq, List.Pairwise.nil, and_true]
      exact ⟨⟨e01, e02⟩, e12, fun _ h => h.elim⟩
  have hs1 : List.insertionSort (fun a b : ColorBlock => a.center.1 ≤ b.center.1)
      ((L.map (setRow (Y 0 + (Y 1 - Y 0) / 2) (Y 1 + (Y 2 - Y 1) / 2))).filter
        (fun b => b.row == (1 : Int))) =
      [{bl 1 0 with row := 1}, {bl 1 1 with row := 1}, {bl 1 2 with row := 1}] := by
    apply eq_of_perm_key_sorted (fun b : ColorBlock => b.center.1)
    · rw [← hfilter1]
      exact (List.perm_insertionSort _ _).trans (hrowedperm.filter _)
    · exact insertionSort_key_sorted _ _
    · have e01 : (bl 1 0).center.1 < (bl 1 1).center.1 := by
        rw [hx1, hx1]; exact (hX 1).1
      have e12 : (bl 1 1).center.1 < (bl 1 2).center.1 := by
        rw [hx1, hx1]; exact (hX 1).2
      have e02 : (bl 1 0).center.1 < (bl 1 2).center.1 := e01.trans e12
      simp only [List.pairwise_cons, List.mem_cons, List.not_mem_nil, or_false,
        forall_eq_or_imp, forall_eq, List.Pairwise.nil, and_true]
      exact ⟨⟨e01, e02⟩, e12, fun _ h => h.elim⟩
  have hs2 : List.insertionSort (fun a b : ColorBlock => a.center.1 ≤ b.center.1)
      ((L.map (setRow (Y 0 + (Y 1 - Y 0) / 2) (Y 1 + (Y 2 - Y 1) / 2))).filter
        (fun b => b.row == (2 : Int))) =
      [{bl 2 0 with row := 2}, {bl 2 1 with row := 2}, {bl 2 2 with row := 2}] := by
    apply eq_of_perm_key_sorted (fun b : ColorBlock => b.center.1)
    · rw [← hfilter2]
      exact (List.perm_insertionSort _ _).trans (hrowedperm.filter _)
    · exact insertionSort_key_sorted _ _
    · have e01 : (bl 2 0).center.1 < (bl 2 1).center.1 := by
        rw [hx1, hx1]; exact (hX 2).1
      have e12 : (bl 2 1).center.1 < (bl 2 2).center.1 := by
        rw [hx1, hx1]; exact (hX 2).2
      have e02 : (bl 2 0).center.1 < (bl 2 2).center.1 := e01.trans e12
      simp only [List.pairwise_cons, List.mem_cons, List.not_mem_nil, or_false,
        forall_eq_or_imp, forall_eq, List.Pairwise.nil, and_true]
      exact ⟨⟨e01, e02⟩, e12, fun _ h => h.elim⟩
  have hrs0 : rowSorted (L.map (setRow (Y 0 + (Y 1 - Y 0) / 2)
      (Y 1 + (Y 2 - Y 1) / 2))) 0 =
      [{bl 0 0 with row := 0, col := 0}, {bl 0 1 with row := 0, col := 1},
       {bl 0 2 with row := 0, col := 2}] := by
    unfold rowSorted
    rw [hs0]
    exact rfl
  have hrs1 : rowSorted (L.map (setRow (Y 0 + (Y 1 - Y 0) / 2)
      (Y 1 + (Y 2 - Y 1) / 2))) 1 =
      [{bl 1 0 with row := 1, col := 0}, {bl 1 1 with row := 1, col := 1},
       {bl 1 2 with row := 1, col := 2}] := by
    unfold rowSorted
    rw [hs1]
    exact rfl
  have hrs2 : rowSorted (L.map (setRow (Y 0 + (Y 1 - Y 0) / 2)
      (Y 1 + (Y 2 - Y 1) / 2))) 2 =
      [{bl 2 0 with row := 2, col := 0}, {bl 2 1 with row := 2, col := 1},
       {bl 2 2 with row := 2, col := 2}] := by
    unfold rowSorted
    rw [hs2]
    exact rfl
  rw [hrs0, hrs1, hrs2]
  exact rfl

theorem assignToGrid_lattice_recovery_witness :
    rowThresholds latticeList =
      (latticeY 0 + (latticeY 1 - latticeY 0) / 2,
       latticeY 1 + (latticeY 2 - latticeY 1) / 2) ∧
    assignToGrid latticeList =
      [{latticeBl 0 0 with row := 0, col := 0},
       {latticeBl 0 1 with row := 0, col := 1},
       {latticeBl 0 2 with row := 0, col := 2},
       {latticeBl 1 0 with row := 1, col := 0},
       {latticeBl 1 1 with row := 1, col := 1},
       {latticeBl 1 2 with row := 1, col := 2},
       {latticeBl 2 0 with row := 2, col := 0},
       {latticeBl 2 1 with row := 2, col := 1},
       {latticeBl 2 2 with row := 2, col := 2}] :=
  assignToGrid_lattice_recovery latticeBl latticeY latticeX
    (fun r c => rfl) (by with_unfolding_all decide)
    (by with_unfolding_all decide)
    (by with_unfolding_all decide)
    latticeList (List.Perm.refl _)

lemma mkMat_defined (rows cols : Nat) (c : BGR) :
    DefinedMat (mkMat rows cols c) := by
  intro y x hy hx
  simp only [mkMat] at hy hx ⊢
  simp [hy, hx]

lemma fillRect_defined {m : Mat} (h : DefinedMat m) (rx ry rw rh : Nat)
    (c : BGR) : DefinedMat (fillRect m rx ry rw rh c) := by
  intro y x hy hx
  simp only [fillRect] at hy hx ⊢
  split
  · rfl
  · exact h y x hy hx

lemma strokeRect_defined {m : Mat} (h : DefinedMat m) (rx ry rw rh t : Nat)
    (c : BGR) : DefinedMat (strokeRect m rx ry rw rh t c) := by
  intro y x hy hx
  simp only [strokeRect] at hy hx ⊢
  split
  · rfl
  · exact h y x hy hx

lemma putTextBox_defined {m : Mat} (h : DefinedMat m) (ox oy : Nat)
    (c : BGR) : DefinedMat (putTextBox m ox oy c) := by
  intro y x hy hx
  simp only [putTextBox] at hy hx ⊢
  split
  · rfl
  · exact h y x hy hx

lemma drawCell_defined {m : Mat} (mp : List (Char × BGR))
    (cm : List (List Char)) (rc : Nat × Nat) (h : DefinedMat m) :
    DefinedMat (drawCell mp cm m rc) :=
  putTextBox_defined (strokeRect_defined (fillRect_defined h _ _ _ _ _)
    _ _ _ _ _ _) _ _ _

/-- A pixel outside a `putTextBox` glyph box is untouched. -/
lemma putTextBox_px_outside {m : Mat} (ox oy : Nat) (c : BGR) (py qx : Nat)
    (h : py + 16 < oy ∨ oy < py ∨ qx < ox ∨ ox + 13 ≤ qx) :
    (putTextBox m ox oy c).px py qx = m.px py qx := by
  unfold putTextBox
  dsimp only
  rw [if_neg]
  omega

/-- A pixel outside the 60×60 tile of cell (rr, cc) is untouched by
`drawCell`: all three writes of the cell stay inside its tile. -/
lemma drawCell_px_outside {m : Mat} (mp : List (Char × BGR))
    (cm : List (List Char)) (rr cc : Nat) (py qx : Nat)
    (h : py < 10 + rr * 60 ∨ 10 + rr * 60 + 60 ≤ py ∨
      qx < 10 + cc * 60 ∨ 10 + cc * 60 + 60 ≤ qx) :
    (drawCell mp cm m (rr, cc)).px py qx = m.px py qx := by
  unfold drawCell putTextBox strokeRect fillRect blockSize
  dsimp only
  rw [if_neg (by omega), if_neg (by omega), if_neg (by omega)]

/-- The pixel at offset (5, 5) inside cell (rr, cc)'s tile shows the cell's
fill color: the border stroke (thickness 2) and the glyph box (starting 20
pixels in) do not cover it. -/
lemma drawCell_px_self {m : Mat} (mp : List (Char × BGR))
    (cm : List (List Char)) (rr cc : Nat)
    (hrows : 10 + rr * 60 + 5 < m.rows) (hcols : 10 + cc * 60 + 5 < m.cols) :
    (drawCell mp cm m (rr, cc)).px (10 + rr * 60 + 5) (10 + cc * 60 + 5) =
      some (cellBlockColor mp ((cm.getD rr []).getD cc ' ')) := by
  unfold drawCell putTextBox strokeRect fillRect blockSize
  dsimp only
  rw [if_neg (by omega), if_neg (by omega),
    if_pos ⟨by omega, by omega, by omega, by omega, hrows, hcols⟩]

/-- A fold whose steps all leave pixel (p, q) alone leaves it alone. -/
lemma foldl_px_unchanged {α : Type} (f : Mat → α → Mat) (p q : Nat) :
    ∀ (l : List α) (m : Mat),
      (∀ m' a, a ∈ l → (f m' a).px p q = m'.px p q) →
      (l.foldl f m).px p q = m.px p q
  | [], _, _ => rfl
  | a :: t, m, h => by
    rw [List.foldl_cons,
      foldl_px_unchanged f p q t (f m a)
        (fun m' b hb => h m' b (List.mem_cons_of_mem a hb)),
      h m a (List.mem_cons_self a t)]

/-- If only the step at `a0` writes pixel (p, q) — always to the value `v`
on states satisfying the invariant `P` — then a fold over a list containing
`a0` leaves `v` at that pixel. -/
lemma foldl_px_once {α : Type} (f : Mat → α → Mat) (p q : Nat)
    (a0 : α) (v : Option BGR) (P : Mat → Prop)
    (hP : ∀ m a, P m → P (f m a)) :
    ∀ (l : List α) (init : Mat),
      (∀ m a, a ∈ l → a ≠ a0 → (f m a).px p q = m.px p q) →
      (∀ m, P m → (f m a0).px p q = v) → a0 ∈ l → P init →
      (l.foldl f init).px p q = v
  | [], _, _, _, hmem, _ => absurd hmem (by simp)
  | a :: t, init, hunch, hset, hmem, hPinit => by
    rw [List.foldl_cons]
    by_cases hat : a0 ∈ t
    · exact foldl_px_once f p q a0 v P hP t (f init a)
        (fun m b hb => hunch m b (List.mem_cons_of_mem a hb)) hset hat
        (hP init a hPinit)
    · have ha : a = a0 := by
        rcases List.mem_cons.mp hmem with h | h
        · exact h.symm
        · exact absurd h hat
      subst ha
      rw [foldl_px_unchanged f p q t (f init a)
        (fun m' b hb => hunch m' b (List.mem_cons_of_mem a hb)
          (fun hb0 => hat (hb0 ▸ hb)))]
      exact hset init hPinit

/-- C8: `drawStandardFace` is total — every in-bounds pixel of the output
is defined — and a cell whose character is not a key of the code→color
table is filled with the neutral gray placeholder (128,128,128)
(main.cpp lines 291–354; the default at lines 308–311): the interior
sample pixel at offset (5,5) of that cell shows gray. -/
theorem drawStandardFace_total_gray (colorMatrix : List (List Char))
    (mp : List (Char × BGR)) (faceName : String) :
    (∀ y x, y < (drawStandardFace colorMatrix mp faceName).rows →
      x < (drawStandardFace colorMatrix mp faceName).cols →
      ((drawStandardFace colorMatrix mp faceName).px y x).isSome) ∧
    (∀ r c : Nat, r < 3 → c < 3 →
      lookupCode mp ((colorMatrix.getD r []).getD c ' ') = none →
      (drawStandardFace colorMatrix mp faceName).px (10 + r * blockSize + 5)
        (10 + c * blockSize + 5) = some ⟨128, 128, 128⟩) ∧
    (∀ code : Char, lookupCode getColorCodeMap code = none ↔
      code ∉ ['R', 'Y', 'G', 'B', 'W', 'P']) := by
  refine ⟨?_, ?_, ?_⟩
  · have hcells : DefinedMat (cellRC.foldl (drawCell mp colorMatrix)
        (faceCanvas faceName)) :=
      foldl_invariant DefinedMat _ cellRC (faceCanvas faceName)
        (mkMat_defined _ _ _)
        (fun m rc _ hm => drawCell_defined mp colorMatrix rc hm)
    unfold drawStandardFace
    split
    · exact hcells
    · exact putTextBox_defined hcells _ _ _
  · intro r c hr hc hlook
    have hgray : cellBlockColor mp ((colorMatrix.getD r []).getD c ' ') =
        ⟨128, 128, 128⟩ := by
      unfold cellBlockColor
      rw [hlook]
      rfl
    have hdims : ∀ m (rc : Nat × Nat),
        (m.rows = 200 + (if faceName = "" then 0 else 25) ∧ m.cols = 200) →
        ((drawCell mp colorMatrix m rc).rows =
            200 + (if faceName = "" then 0 else 25) ∧
          (drawCell mp colorMatrix m rc).cols = 200) :=
      fun m rc h => h
    have hmem : (r, c) ∈ cellRC := by
      interval_cases r <;> interval_cases c <;> simp [cellRC]
    have hfold : ((cellRC.foldl (drawCell mp colorMatrix)
        (faceCanvas faceName)).px (10 + r * 60 + 5) (10 + c * 60 + 5)) =
        some (cellBlockColor mp ((colorMatrix.getD r []).getD c ' ')) := by
      refine foldl_px_once (drawCell mp colorMatrix)
        (10 + r * 60 + 5) (10 + c * 60 + 5) (r, c)
        (some (cellBlockColor mp ((colorMatrix.getD r []).getD c ' ')))
        (fun m => m.rows = 200 + (if faceName = "" then 0 else 25) ∧
          m.cols = 200)
        hdims cellRC (faceCanvas faceName) ?_ ?_ hmem ?_
      · intro m rc' hrc' hne
        have hne' : ¬(rc'.1 = r ∧ rc'.2 = c) := by
          intro hcontra
          exact hne (Prod.ext hcontra.1 hcontra.2)
        fin_cases hrc' <;>
          [skip; skip; skip; skip; skip; skip; skip; skip; skip] <;>
          · simp only [Prod.fst, Prod.snd] at hne'
            exact drawCell_px_outside mp colorMatrix _ _ _ _ (by omega)
      · intro m hm
        exact drawCell_px_self mp colorMatrix r c
          (by rw [hm.1]; split <;> omega) (by rw [hm.2]; omega)
      · constructor
        · unfold faceCanvas mkMat blockSize
          norm_num
        · unfold faceCanvas mkMat blockSize
          norm_num
    have hout : (drawStandardFace colorMatrix mp faceName).px
        (10 + r * 60 + 5) (10 + c * 60 + 5) =
        some (cellBlockColor mp ((colorMatrix.getD r []).getD c ' ')) := by
      unfold drawStandardFace
      split
      · exact hfold
      · simp only [blockSize]
        rw [putTextBox_px_outside _ _ _ _ _ (by omega)]
        exact hfold
    rw [show (10 + r * blockSize + 5) = 10 + r * 60 + 5 from rfl,
      show (10 + c * blockSize + 5) = 10 + c * 60 + 5 from rfl, hout, hgray]
  · intro code
    rw [lookupCode]
    simp [List.find?_eq_none, getColorCodeMap, colorTable]
    tauto

theorem drawStandardFace_total_gray_witness :
    ((drawStandardFace blankMatrix getColorCodeMap "Up").px 100 100).isSome ∧
    (drawStandardFace blankMatrix getColorCodeMap "Up").px 15 15 =
      some ⟨128, 128, 128⟩ :=
  ⟨(drawStandardFace_total_gray blankMatrix getColorCodeMap "Up").1 100 100
      (by decide) (by decide),
   (drawStandardFace_total_gray blankMatrix getColorCodeMap "Up").2.1 0 0
      (by norm_num) (by norm_num) (by decide)⟩

/-- C9: rendering is deterministic.  In this embedding `drawStandardFace`
is a pure function of the color matrix, the code→display-color table and
the face name — the C++ reads no other state, seeds no randomness, and its
output `Mat` is fully initialized by the scalar constructor — so two
invocations on the same inputs agree at every pixel of the output
buffers (main.cpp lines 291–354). -/
theorem drawStandardFace_deterministic (cm1 cm2 : List (List Char))
    (mp1 mp2 : List (Char × BGR)) (n1 n2 : String)
    (hcm : cm1 = cm2) (hmp : mp1 = mp2) (hn : n1 = n2) :
    (drawStandardFace cm1 mp1 n1).rows = (drawStandardFace cm2 mp2 n2).rows ∧
    (drawStandardFace cm1 mp1 n1).cols = (drawStandardFace cm2 mp2 n2).cols ∧
    ∀ y x, (drawStandardFace cm1 mp1 n1).px y x =
      (drawStandardFace cm2 mp2 n2).px y x := by
  subst hcm hmp hn
  exact ⟨rfl, rfl, fun y x => rfl⟩

theorem drawStandardFace_deterministic_witness :
    (drawStandardFace blankMatrix getColorCodeMap "Up").px 15 15 =
      (drawStandardFace blankMatrix getColorCodeMap "Up").px 15 15 :=
  (drawStandardFace_deterministic blankMatrix blankMatrix getColorCodeMap
    getColorCodeMap "Up" "Up" rfl rfl rfl).2.2 15 15

end Rubiks
